import Mathlib

/-!
Shallow embedding of the conversation lifecycle engine of this repository
(`conversation.py`) and of the output chunker (`utils.py`).

Modelling conventions:
* Wall-clock timestamps (`datetime`) and second counts (`float`) are modelled
  as exact rationals (`Rat`); every operation that reads the clock in Python
  (`datetime.now(...)`) takes the current time `now : Rat` as an explicit
  argument.
* A Python `dict[int, ChannelConversation]` is modelled as an ordered
  association list `List (Int × ChannelConversation)`; `dictGet`, `dictSet`
  and `dictDel` mirror lookup, `d[k] = v` (replace in place, else append at
  the end, as insertion-ordered dicts do) and `del d[k]` / `d.pop(k, None)`.
* Mutating methods of `ConversationManager` return the updated manager
  (together with the Python return value where there is one).
* The message records consumed by the manager carry the fields the
  conversation code reads and its callers construct (`author`, `author_id`,
  `content`, `timestamp`, `is_bot`); `conversation.py` accesses
  `msg.author_id` on them.
* The per-turn LLM history entries are opaque blobs to this component and
  are modelled as an uninterpreted wrapper around `String`.
-/

/-- A recorded message, as consumed by `ConversationManager`
(`tools.MessageData` / the `MessageRecord` shape built in `bot.py`). -/
structure MessageData where
  author : String
  author_id : Int
  content : String
  timestamp : Rat
  is_bot : Bool
deriving DecidableEq, Repr

/-- Opaque LLM history entry (`pydantic_ai.ModelMessage`); the conversation
code only stores and returns these, never inspects them. -/
structure ModelMessage where
  blob : String
deriving DecidableEq, Repr

/-- `ChannelConversation` dataclass: state for an active conversation in a
channel (`conversation.py`, lines 12-30). -/
structure ChannelConversation where
  channel_id : Int
  started_at : Rat
  last_activity : Rat
  messages : List MessageData := []
  llm_history : List ModelMessage := []
  participants : Finset Int := ∅
  last_bot_response : Option Rat := none
deriving DecidableEq

/-- Lookup in an insertion-ordered dict modelled as an association list
(`d.get(k)` / `d[k]`). -/
def dictGet {α : Type} : List (Int × α) → Int → Option α
  | [], _ => none
  | p :: rest, k => if p.1 = k then some p.2 else dictGet rest k

/-- `d[k] = v` on an insertion-ordered dict: replace the entry in place if
the key is present, otherwise append at the end. -/
def dictSet {α : Type} : List (Int × α) → Int → α → List (Int × α)
  | [], k, v => [(k, v)]
  | p :: rest, k, v => if p.1 = k then (k, v) :: rest else p :: dictSet rest k v

/-- `del d[k]` / `d.pop(k, None)`: drop the entry with key `k` (a Python dict
holds at most one). -/
def dictDel {α : Type} (d : List (Int × α)) (k : Int) : List (Int × α) :=
  d.filter (fun p => !decide (p.1 = k))

/-- `ConversationManager`: per-channel conversation registry with a
configured timeout in seconds (`conversation.py`, lines 33-120). -/
structure ConversationManager where
  timeout : Rat
  conversations : List (Int × ChannelConversation) := []
deriving DecidableEq

/-- `ConversationManager.get`: look up the channel's conversation; if
`now - last_activity > timeout` delete the entry and return `none`,
otherwise return it unchanged (`conversation.py`, lines 40-58). -/
def ConversationManager.get (m : ConversationManager) (now : Rat)
    (channel_id : Int) : ConversationManager × Option ChannelConversation :=
  match dictGet m.conversations channel_id with
  | none => (m, none)
  | some conv =>
    let elapsed := now - conv.last_activity
    if elapsed > m.timeout then
      ({ m with conversations := dictDel m.conversations channel_id }, none)
    else
      (m, some conv)

/-- `ConversationManager.start`: create a fresh conversation seeded with a
copy of `initial_messages` (copying is the identity under value semantics)
and with each initial message's `author_id` added to `participants`
(`conversation.py`, lines 60-79). -/
def ConversationManager.start (m : ConversationManager) (now : Rat)
    (channel_id : Int) (initial_messages : List MessageData) :
    ConversationManager × ChannelConversation :=
  let conv0 : ChannelConversation :=
    { channel_id := channel_id
      started_at := now
      last_activity := now
      messages := initial_messages }
  let conv : ChannelConversation :=
    { conv0 with
      participants :=
        initial_messages.foldl (fun s msg => insert msg.author_id s)
          conv0.participants }
  ({ m with conversations := dictSet m.conversations channel_id conv }, conv)

/-- `ConversationManager.record_message`: no-op when the channel has no
entry; otherwise bump `last_activity`, append the message and add its author
to `participants` (`conversation.py`, lines 81-98). -/
def ConversationManager.record_message (m : ConversationManager) (now : Rat)
    (channel_id : Int) (message : MessageData) : ConversationManager :=
  match dictGet m.conversations channel_id with
  | none => m
  | some conv =>
    let conv' :=
      { conv with
        last_activity := now
        messages := conv.messages ++ [message]
        participants := insert message.author_id conv.participants }
    { m with conversations := dictSet m.conversations channel_id conv' }

/-- `ConversationManager.record_bot_response`: no-op when the channel has no
entry; otherwise replace `llm_history` and set `last_bot_response = now`
(`conversation.py`, lines 100-116). -/
def ConversationManager.record_bot_response (m : ConversationManager)
    (now : Rat) (channel_id : Int) (llm_history : List ModelMessage) :
    ConversationManager :=
  match dictGet m.conversations channel_id with
  | none => m
  | some conv =>
    let conv' := { conv with llm_history := llm_history
                             last_bot_response := some now }
    { m with conversations := dictSet m.conversations channel_id conv' }

/-- `ConversationManager.end`: remove the entry if present
(`self._conversations.pop(channel_id, None)`, `conversation.py`,
lines 118-120). -/
def ConversationManager.«end» (m : ConversationManager) (channel_id : Int) :
    ConversationManager :=
  { m with conversations := dictDel m.conversations channel_id }

/-- A mentioned Discord user, exposing only the `id` field the decider reads
(`discord.User` / `discord.Member`). -/
structure DiscordUser where
  id : Int
deriving DecidableEq, Repr

/-- The resolved target of a message reference: either a real message (with
its author) or a deleted-message placeholder, mirroring the
`isinstance(referenced, discord.Message)` check. -/
inductive ResolvedMessage where
  | message (author : DiscordUser)
  | deleted
deriving DecidableEq, Repr

/-- `discord.MessageReference`: the `resolved` field may be unpopulated. -/
structure MessageReference where
  resolved : Option ResolvedMessage
deriving DecidableEq, Repr

/-- An inbound Discord message, exposing the fields `ResponseDecider`
reads: `content`, `mentions`, and an optional `reference`. -/
structure DiscordMessage where
  content : String
  mentions : List DiscordUser := []
  reference : Option MessageReference := none
deriving DecidableEq, Repr

/-- `ResponseDecider`: its only state is the configured followup window in
seconds (`conversation.py`, lines 123-133). -/
structure ResponseDecider where
  followup_window_seconds : Rat
deriving DecidableEq, Repr

/-- `ResponseDecider._is_explicit_trigger`: true when the bot's id is among
the mentioned users' ids, or the message is a reply whose resolved target is
a message authored by the bot (`conversation.py`, lines 135-149). -/
def is_explicit_trigger (message : DiscordMessage) (bot_user_id : Int) :
    Bool :=
  if (message.mentions.map (fun u => u.id)).contains bot_user_id then
    true
  else
    match message.reference with
    | some ref =>
      match ref.resolved with
      | some (ResolvedMessage.message author) => decide (author.id = bot_user_id)
      | some ResolvedMessage.deleted => false
      | none => false
    | none => false

/-- `ResponseDecider._seconds_since_bot_spoke`: `none` when the bot has not
spoken, otherwise the wall-clock delta (`conversation.py`, lines 151-166). -/
def seconds_since_bot_spoke (now : Rat)
    (conversation : ChannelConversation) : Option Rat :=
  match conversation.last_bot_response with
  | none => none
  | some t => some (now - t)

/-- Helper for `pySplit`: scan the characters, accumulating the current
word (reversed) and emitting it at each whitespace boundary. -/
def pySplitAux : List Char → List Char → List (List Char)
  | [], acc => if acc.isEmpty then [] else [acc.reverse]
  | c :: rest, acc =>
    if c.isWhitespace then
      if acc.isEmpty then pySplitAux rest []
      else acc.reverse :: pySplitAux rest []
    else pySplitAux rest (c :: acc)

/-- Python's `str.split()` with no argument: the maximal runs of
non-whitespace characters, in order (runs of whitespace separate words and
produce no empty pieces). -/
def pySplit (s : List Char) : List (List Char) :=
  pySplitAux s []

/-- `ResponseDecider._looks_like_followup`: case-insensitive heuristic —
fewer than 10 words and a question mark, or the content starts with one of
a fixed continuation-word list (`conversation.py`, lines 168-187). The
content is handled as its character sequence; `str.lower()` is
`Char.toLower` character-wise. -/
def looks_like_followup (message : DiscordMessage) : Bool :=
  let content := message.content.toList.map Char.toLower
  if (pySplit content).length < 10 && content.contains '?' then
    true
  else
    let starters := ["and ", "also ", "what about ", "how about ", "why ", "but "]
    starters.any (fun s => s.toList.isPrefixOf content)

/-- `ResponseDecider.should_start_conversation` (`conversation.py`,
lines 189-206). -/
def should_start_conversation (message : DiscordMessage)
    (bot_user_id : Int) : Bool × String :=
  if is_explicit_trigger message bot_user_id then
    if (message.mentions.map (fun u => u.id)).contains bot_user_id then
      (true, "explicit_mention")
    else
      (true, "reply_to_bot")
  else
    (false, "no_trigger")

/-- `ResponseDecider.should_respond`: three-tier policy — explicit trigger,
then recent-followup (`seconds_since_bot_spoke` non-null and below the
window, and the message looks like a followup), then no response
(`conversation.py`, lines 208-238). -/
def ResponseDecider.should_respond (d : ResponseDecider) (now : Rat)
    (message : DiscordMessage) (conversation : ChannelConversation)
    (bot_user_id : Int) : Bool × String :=
  if is_explicit_trigger message bot_user_id then
    (true, "explicit_trigger")
  else
    match seconds_since_bot_spoke now conversation with
    | some s =>
      if s < d.followup_window_seconds then
        if looks_like_followup message then (true, "recent_followup")
        else (false, "no_trigger")
      else (false, "no_trigger")
    | none => (false, "no_trigger")

/-!
The output chunker (`utils.chunk_message`). Python strings are modelled as
`List Char` so that slicing (`s[:i]`, `s[i:]`) and `str.rfind` are explicit.
-/

/-- Helper for `pyRfind`: scan the list left to right, remembering the last
position where `pat` occurs. -/
def pyRfindAux (pat : List Char) : List Char → Nat → Int → Int
  | [], _, best => best
  | c :: rest, i, best =>
    pyRfindAux pat rest (i + 1)
      (if pat.isPrefixOf (c :: rest) then (i : Int) else best)

/-- Python's `s.rfind(pat)` for a non-empty `pat`: the highest index at
which `pat` occurs in `s`, or `-1` if it does not occur. -/
def pyRfind (s pat : List Char) : Int :=
  pyRfindAux pat s 0 (-1)

/-- Python's `str.strip()`: drop leading and trailing whitespace. -/
def pyStrip (s : List Char) : List Char :=
  ((s.dropWhile Char.isWhitespace).reverse.dropWhile Char.isWhitespace).reverse

/-- The split-position cascade of `chunk_message`'s loop body
(`utils.py`, lines 33-49): last `"\n\n"`, else last `". "` keeping the
period, else last `" "`, else a hard cut at `max_length`. -/
def splitPos (chunk : List Char) (max_length : Nat) : Nat :=
  let p0 : Int := pyRfind chunk ['\n', '\n']
  let p1 : Int :=
    if p0 = -1 then
      let q := pyRfind chunk ['.', ' ']
      if q ≠ -1 then q + 1 else q
    else p0
  let p2 : Int := if p1 = -1 then pyRfind chunk [' '] else p1
  if p2 = -1 then max_length else p2.toNat

/-- The `while remaining:` loop of `chunk_message` (`utils.py`,
lines 28-53), as a structural recursion on a fuel counter. The fuel is an
artefact of totalisation only: each Python iteration shortens `remaining`
by at least one character whenever `max_length ≥ 1`, so with the fuel
`chunk_message` supplies the `0`-fuel branch is reached only where the
Python loop never terminates (`max_length = 0` on an over-long text whose
head is not whitespace); everywhere else the translation follows the
source exactly (see `chunkLoop_fuel_enough`). -/
def chunkLoop (max_length : Nat) : Nat → List Char → List (List Char)
  | 0, _ => []
  | fuel + 1, remaining =>
    if remaining.isEmpty then []
    else if remaining.length ≤ max_length then [remaining]
    else
      let sp := splitPos (remaining.take max_length) max_length
      pyStrip (remaining.take sp) ::
        chunkLoop max_length fuel (pyStrip (remaining.drop sp))

/-- `chunk_message(text, max_length)` (`utils.py`, lines 8-54). -/
def chunk_message (text : List Char) (max_length : Nat) :
    List (List Char) :=
  if text.length ≤ max_length then [text]
  else chunkLoop max_length (text.length + 1) text

/-- Participants invariant of the data model (`spec.md` §3): every author
identifier appearing in a conversation's `messages` is in its
`participants`, for every conversation held by the store. -/
def StoreInv (m : ConversationManager) : Prop :=
  ∀ p ∈ m.conversations, ∀ msg ∈ p.2.messages,
    msg.author_id ∈ p.2.participants

/-! Association-list (dict) lemmas. -/

theorem dictGet_dictSet_self {α : Type} (d : List (Int × α)) (k : Int)
    (v : α) : dictGet (dictSet d k v) k = some v := by
  induction d with
  | nil => simp [dictGet, dictSet]
  | cons p rest ih =>
    by_cases h : p.1 = k
    · simp [dictSet, h, dictGet]
    · simp [dictSet, h, dictGet, ih]

theorem dictGet_dictDel_self {α : Type} (d : List (Int × α)) (k : Int) :
    dictGet (dictDel d k) k = none := by
  induction d with
  | nil => simp [dictDel, dictGet]
  | cons p rest ih =>
    by_cases h : p.1 = k
    · simpa [dictDel, List.filter_cons, h] using ih
    · simpa [dictDel, List.filter_cons, h, dictGet] using ih

theorem dictDel_dictDel {α : Type} (d : List (Int × α)) (k : Int) :
    dictDel (dictDel d k) k = dictDel d k := by
  simp [dictDel, List.filter_filter]

theorem dictGet_eq_none_iff {α : Type} (d : List (Int × α)) (k : Int) :
    dictGet d k = none ↔ ∀ p ∈ d, p.1 ≠ k := by
  induction d with
  | nil => simp [dictGet]
  | cons p rest ih =>
    by_cases h : p.1 = k
    · simp [dictGet, h]
    · simp [dictGet, h, ih]

theorem dictDel_eq_self_of_none {α : Type} (d : List (Int × α)) (k : Int)
    (h : dictGet d k = none) : dictDel d k = d := by
  rw [dictDel, List.filter_eq_self]
  intro p hp
  simpa using (dictGet_eq_none_iff d k).mp h p hp

theorem mem_dictSet {α : Type} {d : List (Int × α)} {k : Int} {v : α}
    {p : Int × α} (h : p ∈ dictSet d k v) : p = (k, v) ∨ p ∈ d := by
  induction d with
  | nil => simpa [dictSet] using h
  | cons q rest ih =>
    by_cases hq : q.1 = k
    · rcases (by simpa [dictSet, hq] using h) with h' | h'
      · exact Or.inl h'
      · exact Or.inr (List.mem_cons_of_mem _ h')
    · rcases (by simpa [dictSet, hq] using h) with h' | h'
      · exact Or.inr (by simp [h'])
      · rcases ih h' with h'' | h''
        · exact Or.inl h''
        · exact Or.inr (List.mem_cons_of_mem _ h'')

theorem dictGet_some_mem {α : Type} {d : List (Int × α)} {k : Int} {v : α}
    (h : dictGet d k = some v) : (k, v) ∈ d := by
  induction d with
  | nil => simp [dictGet] at h
  | cons p rest ih =>
    by_cases hp : p.1 = k
    · have : p.2 = v := by simpa [dictGet, hp] using h
      have hpk : p = (k, v) := by
        cases p; simp_all
      simp [hpk]
    · exact List.mem_cons_of_mem _ (ih (by simpa [dictGet, hp] using h))

/-! Participant-set lemmas. -/

theorem mem_foldl_insert (l : List MessageData) (s : Finset Int) (x : Int) :
    x ∈ l.foldl (fun s msg => insert msg.author_id s) s ↔
      x ∈ s ∨ x ∈ l.map (fun m => m.author_id) := by
  induction l generalizing s with
  | nil => simp
  | cons a t ih =>
    simp only [List.foldl_cons, ih, Finset.mem_insert, List.map_cons,
      List.mem_cons]
    tauto

theorem foldl_insert_eq_toFinset (l : List MessageData) :
    l.foldl (fun s msg => insert msg.author_id s) ∅ =
      (l.map (fun m => m.author_id)).toFinset := by
  ext x
  simp [mem_foldl_insert, List.mem_toFinset]

/-! Claim theorems for the conversation store. -/

/-- C1: for every timeout and elapsed time, `get` returns the conversation
iff `elapsed ≤ timeout`; when `elapsed > timeout` it deletes the entry and
returns absent, the deletion is permanent (every subsequent `get` on that
channel returns absent and leaves the store unchanged), and when
`elapsed ≤ timeout` `get` has no side effect. -/
theorem get_expiry_spec (m : ConversationManager) (now : Rat)
    (channel_id : Int) (conv : ChannelConversation)
    (h : dictGet m.conversations channel_id = some conv) :
    (now - conv.last_activity ≤ m.timeout →
      m.get now channel_id = (m, some conv)) ∧
    (m.timeout < now - conv.last_activity →
      (m.get now channel_id).2 = none ∧
      dictGet (m.get now channel_id).1.conversations channel_id = none ∧
      ∀ later : Rat, (m.get now channel_id).1.get later channel_id =
        ((m.get now channel_id).1, none)) := by
  constructor
  · intro hle
    simp [ConversationManager.get, h, not_lt.mpr hle]
  · intro hgt
    have hgets : m.get now channel_id =
        ({ m with conversations := dictDel m.conversations channel_id },
          none) := by
      simp [ConversationManager.get, h, hgt]
    refine ⟨by simp [hgets], by simp [hgets, dictGet_dictDel_self], ?_⟩
    intro later
    rw [hgets]
    simp [ConversationManager.get, dictGet_dictDel_self]

/-- Witness for `get_expiry_spec` at a concrete store: a one-conversation
store with timeout 120, read 30 seconds after its last activity. -/
theorem get_expiry_spec_witness :
    ConversationManager.get
      { timeout := 120,
        conversations :=
          [(7, { channel_id := 7, started_at := 0, last_activity := 0 })] }
      30 7 =
      ({ timeout := 120,
         conversations :=
           [(7, { channel_id := 7, started_at := 0, last_activity := 0 })] },
        some { channel_id := 7, started_at := 0, last_activity := 0 }) :=
  (get_expiry_spec
      { timeout := 120,
        conversations :=
          [(7, { channel_id := 7, started_at := 0, last_activity := 0 })] }
      30 7 { channel_id := 7, started_at := 0, last_activity := 0 }
      (by decide)).1 (by norm_num)

/-- C2: `start` followed immediately by `get` returns a conversation whose
`participants` is exactly the set of author identifiers of
`initial_messages`, whose `messages` are (a copy of) `initial_messages`,
with empty LLM history and null `last_bot_response`. -/
theorem start_then_get_spec (m : ConversationManager) (now : Rat)
    (channel_id : Int) (initial_messages : List MessageData)
    (htimeout : 0 ≤ m.timeout) :
    ∃ conv,
      ((m.start now channel_id initial_messages).1).get now channel_id =
        ((m.start now channel_id initial_messages).1, some conv) ∧
      conv.participants =
        (initial_messages.map (fun msg => msg.author_id)).toFinset ∧
      conv.messages = initial_messages ∧
      conv.llm_history = [] ∧
      conv.last_bot_response = none ∧
      conv.started_at = now ∧ conv.last_activity = now := by
  refine ⟨(m.start now channel_id initial_messages).2, ?_, ?_, ?_, ?_, ?_,
    ?_, ?_⟩
  · have hg : dictGet
        ((m.start now channel_id initial_messages).1).conversations
        channel_id = some (m.start now channel_id initial_messages).2 := by
      simp [ConversationManager.start, dictGet_dictSet_self]
    have hla : (m.start now channel_id initial_messages).2.last_activity =
        now := by
      simp [ConversationManager.start]
    have htm : ((m.start now channel_id initial_messages).1).timeout =
        m.timeout := by
      simp [ConversationManager.start]
    simp only [ConversationManager.get, hg, hla, htm]
    rw [if_neg (by simpa using htimeout)]
  · simp [ConversationManager.start, foldl_insert_eq_toFinset]
  · simp [ConversationManager.start]
  · simp [ConversationManager.start]
  · simp [ConversationManager.start]
  · simp [ConversationManager.start]
  · simp [ConversationManager.start]

/-- Witness for `start_then_get_spec`: an empty store with timeout 120,
started with two messages by authors 11 and 22. -/
theorem start_then_get_spec_witness :
    ∃ conv,
      ((ConversationManager.start { timeout := 120 } 5 9
        [{ author := "a", author_id := 11, content := "x", timestamp := 1,
           is_bot := false },
         { author := "b", author_id := 22, content := "y", timestamp := 2,
           is_bot := false }]).1).get 5 9 =
        ((ConversationManager.start { timeout := 120 } 5 9
          [{ author := "a", author_id := 11, content := "x", timestamp := 1,
             is_bot := false },
           { author := "b", author_id := 22, content := "y", timestamp := 2,
             is_bot := false }]).1, some conv) ∧
      conv.participants =
        ([{ author := "a", author_id := 11, content := "x", timestamp := 1,
            is_bot := false },
          { author := "b", author_id := 22, content := "y", timestamp := 2,
            is_bot := false }].map
            (fun (msg : MessageData) => msg.author_id)).toFinset ∧
      conv.messages =
        [{ author := "a", author_id := 11, content := "x", timestamp := 1,
           is_bot := false },
         { author := "b", author_id := 22, content := "y", timestamp := 2,
           is_bot := false }] ∧
      conv.llm_history = [] ∧
      conv.last_bot_response = none ∧
      conv.started_at = 5 ∧ conv.last_activity = 5 :=
  start_then_get_spec { timeout := 120 } 5 9
    [{ author := "a", author_id := 11, content := "x", timestamp := 1,
       is_bot := false },
     { author := "b", author_id := 22, content := "y", timestamp := 2,
       is_bot := false }] (by norm_num)

/-- C6: `record_message` on an existing conversation appends exactly one
message (so `messages` grows by 1), sets `last_activity := now` and adds
the author to `participants`; on a channel with no entry it leaves the
whole store unchanged. -/
theorem record_message_spec (m : ConversationManager) (now : Rat)
    (channel_id : Int) (message : MessageData) :
    (∀ conv, dictGet m.conversations channel_id = some conv →
      ∃ conv',
        dictGet (m.record_message now channel_id message).conversations
          channel_id = some conv' ∧
        conv'.messages.length = conv.messages.length + 1 ∧
        conv'.last_activity = now ∧
        conv'.participants = insert message.author_id conv.participants) ∧
    (dictGet m.conversations channel_id = none →
      m.record_message now channel_id message = m) := by
  constructor
  · intro conv h
    refine ⟨{ conv with
        last_activity := now
        messages := conv.messages ++ [message]
        participants := insert message.author_id conv.participants },
      ?_, by simp, rfl, rfl⟩
    simp [ConversationManager.record_message, h, dictGet_dictSet_self]
  · intro h
    simp [ConversationManager.record_message, h]

/-- Witness for `record_message_spec`: recording into a one-conversation
store at channel 3. -/
theorem record_message_spec_witness :
    ∃ conv',
      dictGet
        (ConversationManager.record_message
          { timeout := 120,
            conversations :=
              [(3, { channel_id := 3, started_at := 0, last_activity := 0 })] }
          50 3
          { author := "u", author_id := 77, content := "hi", timestamp := 50,
            is_bot := false }).conversations 3 = some conv' ∧
      conv'.messages.length =
        ({ channel_id := 3, started_at := 0,
           last_activity := 0 } : ChannelConversation).messages.length + 1 ∧
      conv'.last_activity = 50 ∧
      conv'.participants =
        insert (77 : Int)
          ({ channel_id := 3, started_at := 0,
             last_activity := 0 } : ChannelConversation).participants :=
  (record_message_spec
      { timeout := 120,
        conversations :=
          [(3, { channel_id := 3, started_at := 0, last_activity := 0 })] }
      50 3
      { author := "u", author_id := 77, content := "hi", timestamp := 50,
        is_bot := false }).1
    { channel_id := 3, started_at := 0, last_activity := 0 } (by decide)

/-- C8: `record_bot_response` on an existing conversation changes only the
LLM history and `last_bot_response`; `messages`, `participants`,
`started_at`, `channel_id` and in particular `last_activity` are unchanged,
so for every later read time the presence/absence answer of `get` (the
expiry decision) is the same as on the original store. -/
theorem record_bot_response_frame (m : ConversationManager) (now : Rat)
    (channel_id : Int) (blob : List ModelMessage)
    (conv : ChannelConversation)
    (h : dictGet m.conversations channel_id = some conv) :
    (∃ conv',
      dictGet (m.record_bot_response now channel_id blob).conversations
        channel_id = some conv' ∧
      conv'.llm_history = blob ∧
      conv'.last_bot_response = some now ∧
      conv'.messages = conv.messages ∧
      conv'.participants = conv.participants ∧
      conv'.started_at = conv.started_at ∧
      conv'.last_activity = conv.last_activity ∧
      conv'.channel_id = conv.channel_id) ∧
    ∀ later : Rat,
      ((m.record_bot_response now channel_id blob).get later
          channel_id).2.isSome =
        ((m.get later channel_id).2).isSome := by
  have hset : dictGet
      (m.record_bot_response now channel_id blob).conversations channel_id =
      some { conv with llm_history := blob
                       last_bot_response := some now } := by
    simp [ConversationManager.record_bot_response, h, dictGet_dictSet_self]
  have htm : (m.record_bot_response now channel_id blob).timeout =
      m.timeout := by
    simp [ConversationManager.record_bot_response, h]
  constructor
  · exact ⟨{ conv with llm_history := blob
                       last_bot_response := some now },
      hset, rfl, rfl, rfl, rfl, rfl, rfl, rfl⟩
  · intro later
    by_cases hc : m.timeout < later - conv.last_activity
    · simp [ConversationManager.get, hset, htm, h, hc]
    · simp [ConversationManager.get, hset, htm, h, hc]

/-- Witness for `record_bot_response_frame` at a concrete one-conversation
store. -/
theorem record_bot_response_frame_witness :
    (∃ conv',
      dictGet
        (ConversationManager.record_bot_response
          { timeout := 120,
            conversations :=
              [(4, { channel_id := 4, started_at := 0, last_activity := 2 })] }
          60 4 [{ blob := "turn" }]).conversations 4 = some conv' ∧
      conv'.llm_history = [{ blob := "turn" }] ∧
      conv'.last_bot_response = some 60 ∧
      conv'.messages =
        ({ channel_id := 4, started_at := 0,
           last_activity := 2 } : ChannelConversation).messages ∧
      conv'.participants =
        ({ channel_id := 4, started_at := 0,
           last_activity := 2 } : ChannelConversation).participants ∧
      conv'.started_at = 0 ∧
      conv'.last_activity = 2 ∧
      conv'.channel_id = 4) ∧
    ∀ later : Rat,
      ((ConversationManager.record_bot_response
          { timeout := 120,
            conversations :=
              [(4, { channel_id := 4, started_at := 0, last_activity := 2 })] }
          60 4 [{ blob := "turn" }]).get later 4).2.isSome =
        ((ConversationManager.get
            { timeout := 120,
              conversations :=
                [(4, { channel_id := 4, started_at := 0,
                       last_activity := 2 })] }
            later 4).2).isSome :=
  record_bot_response_frame
    { timeout := 120,
      conversations :=
        [(4, { channel_id := 4, started_at := 0, last_activity := 2 })] }
    60 4 [{ blob := "turn" }]
    { channel_id := 4, started_at := 0, last_activity := 2 } (by decide)

/-- C10: ending a channel twice leaves the store exactly as ending it once,
and `end` on a channel with no entry is a no-op. -/
theorem end_idempotent (m : ConversationManager) (channel_id : Int) :
    (m.«end» channel_id).«end» channel_id = m.«end» channel_id ∧
    (dictGet m.conversations channel_id = none →
      m.«end» channel_id = m) := by
  constructor
  · simp [ConversationManager.«end», dictDel_dictDel]
  · intro h
    simp [ConversationManager.«end», dictDel_eq_self_of_none _ _ h]

/-- Witness for `end_idempotent`: ending channel 2 twice on a store holding
only channel 1, which also exercises the no-entry no-op. -/
theorem end_idempotent_witness :
    ConversationManager.«end»
      { timeout := 120,
        conversations :=
          [(1, { channel_id := 1, started_at := 0, last_activity := 0 })] }
      2 =
      { timeout := 120,
        conversations :=
          [(1, { channel_id := 1, started_at := 0, last_activity := 0 })] } :=
  (end_idempotent
      { timeout := 120,
        conversations :=
          [(1, { channel_id := 1, started_at := 0, last_activity := 0 })] }
      2).2 (by decide)

/-- C5: the participants invariant (`participants` contains every author
identifier appearing in `messages`, for every conversation in the store) is
preserved by every store operation: `start`, `record_message`,
`record_bot_response`, `get` and `end`. -/
theorem store_invariant_preserved (m : ConversationManager) (now : Rat)
    (channel_id : Int) (message : MessageData)
    (initial_messages : List MessageData) (blob : List ModelMessage)
    (hInv : StoreInv m) :
    StoreInv (m.start now channel_id initial_messages).1 ∧
    StoreInv (m.record_message now channel_id message) ∧
    StoreInv (m.record_bot_response now channel_id blob) ∧
    StoreInv (m.get now channel_id).1 ∧
    StoreInv (m.«end» channel_id) := by
  refine ⟨?_, ?_, ?_, ?_, ?_⟩
  · intro p hp msg hmsg
    rcases mem_dictSet (by simpa [ConversationManager.start] using hp) with
      hnew | hold
    · subst hnew
      simp only at hmsg ⊢
      rw [mem_foldl_insert]
      exact Or.inr (List.mem_map_of_mem _ hmsg)
    · exact hInv p hold msg hmsg
  · cases hc : dictGet m.conversations channel_id with
    | none =>
      intro p hp msg hmsg
      exact hInv p
        (by simpa [ConversationManager.record_message, hc] using hp) msg hmsg
    | some conv =>
      intro p hp msg hmsg
      rcases mem_dictSet
          (by simpa [ConversationManager.record_message, hc] using hp) with
        hnew | hold
      · subst hnew
        simp only [List.mem_append, List.mem_singleton] at hmsg
        rcases hmsg with hmem | heq
        · exact Finset.mem_insert_of_mem
            (hInv _ (dictGet_some_mem hc) msg hmem)
        · subst heq
          exact Finset.mem_insert_self _ _
      · exact hInv p hold msg hmsg
  · cases hc : dictGet m.conversations channel_id with
    | none =>
      intro p hp msg hmsg
      exact hInv p
        (by simpa [ConversationManager.record_bot_response, hc] using hp)
        msg hmsg
    | some conv =>
      intro p hp msg hmsg
      rcases mem_dictSet
          (by simpa [ConversationManager.record_bot_response, hc] using hp)
        with hnew | hold
      · subst hnew
        exact hInv _ (dictGet_some_mem hc) msg hmsg
      · exact hInv p hold msg hmsg
  · cases hc : dictGet m.conversations channel_id with
    | none =>
      intro p hp msg hmsg
      exact hInv p (by simpa [ConversationManager.get, hc] using hp) msg hmsg
    | some conv =>
      by_cases hexp : m.timeout < now - conv.last_activity
      · intro p hp msg hmsg
        have hp' : p ∈ dictDel m.conversations channel_id := by
          simpa [ConversationManager.get, hc, hexp] using hp
        exact hInv p (List.mem_filter.mp hp').1 msg hmsg
      · intro p hp msg hmsg
        exact hInv p
          (by simpa [ConversationManager.get, hc, hexp] using hp) msg hmsg
  · intro p hp msg hmsg
    have hp' : p ∈ dictDel m.conversations channel_id := by
      simpa [ConversationManager.«end»] using hp
    exact hInv p (List.mem_filter.mp hp').1 msg hmsg

/-- Witness for `store_invariant_preserved`: a store holding one
conversation with one recorded message whose author is a participant. -/
theorem store_invariant_preserved_witness :
    StoreInv
      ((ConversationManager.record_message
        { timeout := 120,
          conversations :=
            [(6, { channel_id := 6, started_at := 0, last_activity := 0,
                   messages :=
                     [{ author := "u", author_id := 9, content := "q",
                        timestamp := 0, is_bot := false }],
                   participants := {9} })] }
        1 6
        { author := "v", author_id := 10, content := "r", timestamp := 1,
          is_bot := false })) :=
  (store_invariant_preserved
      { timeout := 120,
        conversations :=
          [(6, { channel_id := 6, started_at := 0, last_activity := 0,
                 messages :=
                   [{ author := "u", author_id := 9, content := "q",
                      timestamp := 0, is_bot := false }],
                 participants := {9} })] }
      1 6
      { author := "v", author_id := 10, content := "r", timestamp := 1,
        is_bot := false }
      [] [] (by unfold StoreInv; decide)).2.1

/-! Claim theorems for the response decider. -/

theorem contains_iff_mem {l : List Int} {x : Int} :
    l.contains x = true ↔ x ∈ l := by
  simp [List.contains, List.elem_iff]

/-- C3: `should_respond` evaluates its three tiers in order with first match
winning: explicit trigger → `(true, "explicit_trigger")`; otherwise a bot
response within the followup window plus a followup-shaped message →
`(true, "recent_followup")`; otherwise `(false, "no_trigger")`. In
particular, for content `"Why?"` with the bot's last response 30 seconds
ago and a 60-second window the result is `(true, "recent_followup")`, and
with the last response 90 seconds ago it is `(false, "no_trigger")`. -/
theorem should_respond_tiers (d : ResponseDecider) (now : Rat)
    (message : DiscordMessage) (conversation : ChannelConversation)
    (bot_user_id : Int) :
    (is_explicit_trigger message bot_user_id = true →
      d.should_respond now message conversation bot_user_id =
        (true, "explicit_trigger")) ∧
    (is_explicit_trigger message bot_user_id = false →
      ∀ t, conversation.last_bot_response = some t →
        now - t < d.followup_window_seconds →
        looks_like_followup message = true →
        d.should_respond now message conversation bot_user_id =
          (true, "recent_followup")) ∧
    (is_explicit_trigger message bot_user_id = false →
      (∀ t, conversation.last_bot_response = some t →
        now - t < d.followup_window_seconds →
        looks_like_followup message = false) →
      d.should_respond now message conversation bot_user_id =
        (false, "no_trigger")) ∧
    ResponseDecider.should_respond ⟨60⟩ 100 { content := "Why?" }
      { channel_id := 1, started_at := 0, last_activity := 0,
        last_bot_response := some 70 } 1 = (true, "recent_followup") ∧
    ResponseDecider.should_respond ⟨60⟩ 100 { content := "Why?" }
      { channel_id := 1, started_at := 0, last_activity := 0,
        last_bot_response := some 10 } 1 = (false, "no_trigger") := by
  refine ⟨?_, ?_, ?_, ?_, ?_⟩
  · intro htrig
    simp [ResponseDecider.should_respond, htrig]
  · intro htrig t ht hwin hfol
    simp [ResponseDecider.should_respond, htrig, seconds_since_bot_spoke,
      ht, hwin, hfol]
  · intro htrig hno
    cases ht : conversation.last_bot_response with
    | none =>
      simp [ResponseDecider.should_respond, htrig,
        seconds_since_bot_spoke, ht]
    | some t =>
      by_cases hwin : now - t < d.followup_window_seconds
      · simp [ResponseDecider.should_respond, htrig,
          seconds_since_bot_spoke, ht, hwin, hno t ht hwin]
      · simp [ResponseDecider.should_respond, htrig,
          seconds_since_bot_spoke, ht, hwin]
  · have h1 : is_explicit_trigger { content := "Why?" } 1 = false := by
      decide
    have h2 : looks_like_followup { content := "Why?" } = true := by decide
    have h3 : (100 : Rat) - 70 < 60 := by norm_num
    simp [ResponseDecider.should_respond, seconds_since_bot_spoke, h1, h2,
      h3]
  · have h1 : is_explicit_trigger { content := "Why?" } 1 = false := by
      decide
    have h3 : ¬((100 : Rat) - 10 < 60) := by norm_num
    simp [ResponseDecider.should_respond, seconds_since_bot_spoke, h1, h3]

/-- Witness for `should_respond_tiers`: tier 1 at a concrete mention of the
bot (id 1) inside an active conversation. -/
theorem should_respond_tiers_witness :
    ResponseDecider.should_respond ⟨60⟩ 100
      { content := "hey", mentions := [⟨1⟩] }
      { channel_id := 1, started_at := 0, last_activity := 0 } 1 =
      (true, "explicit_trigger") :=
  (should_respond_tiers ⟨60⟩ 100 { content := "hey", mentions := [⟨1⟩] }
      { channel_id := 1, started_at := 0, last_activity := 0 } 1).1
    (by decide)

/-- C7: `should_start_conversation` answers `(true, "explicit_mention")`
whenever the bot's id is among the mentioned ids — even when a reply
reference to a bot-authored message is also present — answers
`(true, "reply_to_bot")` when only the reply form of the trigger holds, and
`(false, "no_trigger")` when the trigger fails. -/
theorem should_start_conversation_spec (message : DiscordMessage)
    (bot_user_id : Int) :
    (bot_user_id ∈ message.mentions.map (fun u => u.id) →
      should_start_conversation message bot_user_id =
        (true, "explicit_mention")) ∧
    (bot_user_id ∉ message.mentions.map (fun u => u.id) →
      ∀ ref author, message.reference = some ref →
        ref.resolved = some (ResolvedMessage.message author) →
        author.id = bot_user_id →
        should_start_conversation message bot_user_id =
          (true, "reply_to_bot")) ∧
    (is_explicit_trigger message bot_user_id = false →
      should_start_conversation message bot_user_id =
        (false, "no_trigger")) := by
  refine ⟨?_, ?_, ?_⟩
  · intro hmem
    have hc : (message.mentions.map (fun u => u.id)).contains bot_user_id =
        true := contains_iff_mem.mpr hmem
    unfold should_start_conversation is_explicit_trigger
    rw [hc]
    simp
  · intro hmem ref author href hres hid
    have hc : (message.mentions.map (fun u => u.id)).contains bot_user_id =
        false := by
      rw [Bool.eq_false_iff]
      intro hcon
      exact hmem (contains_iff_mem.mp hcon)
    unfold should_start_conversation is_explicit_trigger
    rw [hc, href]
    simp [hres, hid]
  · intro htrig
    simp [should_start_conversation, htrig]

/-- Witness for `should_start_conversation_spec`: the bot (id 1) is both
mentioned and the target of a reply; mention wins. -/
theorem should_start_conversation_spec_witness :
    should_start_conversation
      { content := "hi", mentions := [⟨1⟩],
        reference := some ⟨some (ResolvedMessage.message ⟨1⟩)⟩ } 1 =
      (true, "explicit_mention") :=
  (should_start_conversation_spec
      { content := "hi", mentions := [⟨1⟩],
        reference := some ⟨some (ResolvedMessage.message ⟨1⟩)⟩ } 1).1
    (by decide)

/-! Lemmas about the chunker's primitives. -/

theorem pyRfindAux_cons (pat : List Char) (c : Char) (rest : List Char)
    (i : Nat) (best : Int) :
    pyRfindAux pat (c :: rest) i best =
      pyRfindAux pat rest (i + 1)
        (if pat.isPrefixOf (c :: rest) then (i : Int) else best) := rfl

/-- Full characterisation of the scan underlying `pyRfind`: the result is
either the incoming `best` with no occurrence of `pat` in `l`, or the
position of the last occurrence. -/
theorem pyRfindAux_spec (pat : List Char) :
    ∀ (l : List Char) (i : Nat) (best : Int),
      (pyRfindAux pat l i best = best ∧
        ∀ k, k < l.length → pat.isPrefixOf (l.drop k) = false) ∨
      (∃ k, k < l.length ∧
        pyRfindAux pat l i best = ((i + k : Nat) : Int) ∧
        pat.isPrefixOf (l.drop k) = true ∧
        ∀ j, k < j → j < l.length → pat.isPrefixOf (l.drop j) = false) := by
  intro l
  induction l with
  | nil =>
    intro i best
    left
    exact ⟨rfl, fun k hk => by simp at hk⟩
  | cons c rest ih =>
    intro i best
    have hdrop : ∀ j : Nat, 0 < j →
        (c :: rest).drop j = rest.drop (j - 1) := by
      intro j hj
      obtain ⟨j', rfl⟩ : ∃ j', j = j' + 1 := ⟨j - 1, by omega⟩
      simp
    rcases ih (i + 1)
        (if pat.isPrefixOf (c :: rest) then (i : Int) else best) with
      ⟨hbest, hnone⟩ | ⟨k, hk, heq, hpre, hlast⟩
    · by_cases hp : pat.isPrefixOf (c :: rest)
      · right
        refine ⟨0, by simp, ?_, by simpa using hp, ?_⟩
        · rw [pyRfindAux_cons, hbest, if_pos hp]
          simp
        · intro j hj hjl
          rw [hdrop j hj]
          exact hnone (j - 1) (by simp at hjl ⊢; omega)
      · left
        constructor
        · rw [pyRfindAux_cons, hbest, if_neg hp]
        · intro k hk
          rcases Nat.eq_zero_or_pos k with rfl | hkpos
          · simpa using (Bool.eq_false_iff.mpr hp)
          · rw [hdrop k hkpos]
            exact hnone (k - 1) (by simp at hk ⊢; omega)
    · right
      refine ⟨k + 1, by simp at hk ⊢; omega, ?_, ?_, ?_⟩
      · rw [pyRfindAux_cons, heq]
        push_cast
        ring
      · simpa using hpre
      · intro j hj hjl
        rw [hdrop j (by omega)]
        exact hlast (j - 1) (by omega) (by simp at hjl ⊢; omega)

theorem pyRfind_neg_of_none (s pat : List Char)
    (h : ∀ k, k < s.length → pat.isPrefixOf (s.drop k) = false) :
    pyRfind s pat = -1 := by
  rcases pyRfindAux_spec pat s 0 (-1) with ⟨he, _⟩ | ⟨k, hk, _, hp, _⟩
  · exact he
  · rw [h k hk] at hp
    cases hp

theorem pyRfind_eq_of_last (s pat : List Char) (j : Nat) (hj : j < s.length)
    (hp : pat.isPrefixOf (s.drop j) = true)
    (hlast : ∀ k, j < k → k < s.length → pat.isPrefixOf (s.drop k) = false) :
    pyRfind s pat = (j : Int) := by
  rcases pyRfindAux_spec pat s 0 (-1) with ⟨_, hnone⟩ |
    ⟨k, hk, he, hkp, hklast⟩
  · rw [hnone j hj] at hp
    cases hp
  · rcases lt_trichotomy k j with h | h | h
    · rw [hklast j h hj] at hp
      cases hp
    · subst h
      simpa using he
    · rw [hlast k h hk] at hkp
      cases hkp

theorem pyRfind_ne_neg (s pat : List Char) (h : pyRfind s pat ≠ -1) :
    ∃ k : Nat, pyRfind s pat = (k : Int) ∧
      pat.isPrefixOf (s.drop k) = true ∧ k < s.length ∧
      k + pat.length ≤ s.length := by
  rcases pyRfindAux_spec pat s 0 (-1) with ⟨he, _⟩ | ⟨k, hk, he, hp, _⟩
  · exact absurd he h
  · refine ⟨k, by simpa using he, hp, hk, ?_⟩
    have hle := (List.isPrefixOf_iff_prefix.mp hp).length_le
    rw [List.length_drop] at hle
    omega

theorem dropWhile_length_le (p : Char → Bool) (l : List Char) :
    (l.dropWhile p).length ≤ l.length := by
  induction l with
  | nil => simp
  | cons c rest ih =>
    by_cases h : p c
    · rw [List.dropWhile_cons, if_pos h, List.length_cons]
      omega
    · rw [List.dropWhile_cons, if_neg h]

theorem pyStrip_length_le (s : List Char) :
    (pyStrip s).length ≤ s.length := by
  have h1 := dropWhile_length_le Char.isWhitespace s
  have h2 := dropWhile_length_le Char.isWhitespace
    ((s.dropWhile Char.isWhitespace).reverse)
  unfold pyStrip
  simp only [List.length_reverse] at h1 h2 ⊢
  omega

theorem splitPos_le (chunk : List Char) (max_length : Nat)
    (hc : chunk.length ≤ max_length) :
    splitPos chunk max_length ≤ max_length := by
  simp only [splitPos]
  split_ifs with h1 h2 h3 h4 h5 h6 h7
  all_goals
    first
    | exact le_refl max_length
    | (rcases pyRfind_ne_neg chunk ['\n', '\n'] (by assumption) with
        ⟨k, hk, -, -, hb⟩
       rw [hk]
       simp only [List.length_cons, List.length_nil] at hb
       omega)
    | (rcases pyRfind_ne_neg chunk ['.', ' '] (by assumption) with
        ⟨k, hk, -, -, hb⟩
       rw [hk]
       simp only [List.length_cons, List.length_nil] at hb
       omega)
    | (rcases pyRfind_ne_neg chunk [' '] (by assumption) with
        ⟨k, hk, -, -, hb⟩
       rw [hk]
       simp only [List.length_cons, List.length_nil] at hb
       omega)

theorem chunkLoop_zero (max_length : Nat) (remaining : List Char) :
    chunkLoop max_length 0 remaining = [] := rfl

theorem chunkLoop_step (max_length fuel : Nat) (remaining : List Char)
    (hne : remaining ≠ []) (hlen : ¬ remaining.length ≤ max_length) :
    chunkLoop max_length (fuel + 1) remaining =
      pyStrip
          (remaining.take (splitPos (remaining.take max_length) max_length))
        :: chunkLoop max_length fuel
          (pyStrip (remaining.drop
            (splitPos (remaining.take max_length) max_length))) := by
  simp only [chunkLoop]
  rw [if_neg (by simpa [List.isEmpty_iff] using hne), if_neg hlen]

theorem chunkLoop_done (max_length fuel : Nat) (remaining : List Char)
    (hne : remaining ≠ []) (hlen : remaining.length ≤ max_length) :
    chunkLoop max_length (fuel + 1) remaining = [remaining] := by
  simp only [chunkLoop]
  rw [if_neg (by simpa [List.isEmpty_iff] using hne), if_pos hlen]

/-- Every chunk produced by the loop has length at most `max_length`. -/
theorem chunkLoop_length_le (max_length : Nat) :
    ∀ (fuel : Nat) (remaining c : List Char),
      c ∈ chunkLoop max_length fuel remaining → c.length ≤ max_length := by
  intro fuel
  induction fuel with
  | zero =>
    intro remaining c hmem
    simp [chunkLoop_zero] at hmem
  | succ fuel ih =>
    intro remaining c hmem
    by_cases hne : remaining = []
    · subst hne
      simp [chunkLoop] at hmem
    · by_cases hlen : remaining.length ≤ max_length
      · rw [chunkLoop_done max_length fuel remaining hne hlen] at hmem
        simp at hmem
        subst hmem
        exact hlen
      · rw [chunkLoop_step max_length fuel remaining hne hlen] at hmem
        rcases List.mem_cons.mp hmem with hc | hc
        · subst hc
          have h1 := pyStrip_length_le (remaining.take
            (splitPos (remaining.take max_length) max_length))
          have h2 : (remaining.take
              (splitPos (remaining.take max_length) max_length)).length ≤
              splitPos (remaining.take max_length) max_length := by
            simp [List.length_take]
          have h3 : splitPos (remaining.take max_length) max_length ≤
              max_length :=
            splitPos_le _ _ (by simp [List.length_take])
          omega
        · exact ih _ _ hc

/-! Concrete-example lemmas for the chunker. -/

theorem isPrefixOf_replicate_false {c₀ b : Char} (p : List Char) (n : Nat)
    (hne : c₀ ≠ b) (hn : 0 < n) :
    (c₀ :: p).isPrefixOf (List.replicate n b) = false := by
  obtain ⟨m, rfl⟩ : ∃ m, n = m + 1 := ⟨n - 1, by omega⟩
  rw [List.replicate_succ]
  simp [List.isPrefixOf, hne]

theorem pyRfind_replicate {c₀ b : Char} (p : List Char) (n : Nat)
    (hne : c₀ ≠ b) : pyRfind (List.replicate n b) (c₀ :: p) = -1 := by
  apply pyRfind_neg_of_none
  intro k hk
  rw [List.drop_replicate]
  exact isPrefixOf_replicate_false p _ hne
    (by simp at hk; omega)

theorem splitPos_replicate_A (n max_length : Nat) :
    splitPos (List.replicate n 'A') max_length = max_length := by
  simp only [splitPos]
  rw [pyRfind_replicate _ _ (by decide), pyRfind_replicate _ _ (by decide),
    pyRfind_replicate _ _ (by decide)]
  norm_num

theorem dropWhile_ws_replicate {b : Char} (hb : b.isWhitespace = false) :
    ∀ k : Nat, (List.replicate k b).dropWhile Char.isWhitespace =
      List.replicate k b := by
  intro k
  cases k with
  | zero => simp
  | succ j =>
    rw [List.replicate_succ]
    simp [List.dropWhile_cons, hb]

theorem pyStrip_replicate {b : Char} (n : Nat)
    (hb : b.isWhitespace = false) :
    pyStrip (List.replicate n b) = List.replicate n b := by
  unfold pyStrip
  rw [dropWhile_ws_replicate hb, List.reverse_replicate,
    dropWhile_ws_replicate hb, List.reverse_replicate]

/-- `chunk("A"*3000, 2000) = ["A"*2000, "A"*1000]`: the hard-cut fallback. -/
theorem chunk_message_A3000 :
    chunk_message (List.replicate 3000 'A') 2000 =
      [List.replicate 2000 'A', List.replicate 1000 'A'] := by
  have hlen : (List.replicate 3000 'A').length = 3000 :=
    List.length_replicate 3000 'A'
  have htake : (List.replicate 3000 'A').take 2000 =
      List.replicate 2000 'A' := by
    rw [List.take_replicate]
    norm_num
  have hdrop : (List.replicate 3000 'A').drop 2000 =
      List.replicate 1000 'A' := by
    rw [List.drop_replicate]
  simp only [chunk_message, hlen]
  rw [if_neg (by norm_num)]
  rw [chunkLoop_step 2000 3000 _
    (List.length_pos.mp (by rw [hlen]; norm_num)) (by rw [hlen]; norm_num)]
  rw [htake, splitPos_replicate_A, htake, hdrop,
    pyStrip_replicate _ (by decide), pyStrip_replicate _ (by decide)]
  rw [show (3000 : Nat) = 2999 + 1 by norm_num]
  rw [chunkLoop_done 2000 2999 _
    (List.length_pos.mp (by rw [List.length_replicate]; norm_num))
    (by rw [List.length_replicate]; norm_num)]

theorem isPrefixOf_nl_nl (l : List Char) :
    List.isPrefixOf ['\n', '\n'] ('\n' :: '\n' :: l) = true := by
  simp [List.isPrefixOf]

/-- In `"A"*1500 ++ "\n\n" ++ "B"*498` the last (and only) occurrence of
`"\n\n"` is at index 1500. -/
theorem pyRfind_AB :
    pyRfind
        (List.replicate 1500 'A' ++ '\n' :: '\n' :: List.replicate 498 'B')
        ['\n', '\n'] = (1500 : Nat) := by
  have hAlen : (List.replicate 1500 'A').length = 1500 :=
    List.length_replicate 1500 'A'
  have hchunklen : (List.replicate 1500 'A' ++
      '\n' :: '\n' :: List.replicate 498 'B').length = 2000 := by
    rw [List.length_append, hAlen, List.length_cons, List.length_cons,
      List.length_replicate]
  have hdropA : ∀ X : List Char,
      (List.replicate 1500 'A' ++ X).drop 1500 = X := by
    intro X
    rw [List.drop_append_eq_append_drop, List.drop_replicate, hAlen,
      show (1500 - 1500 : Nat) = 0 from rfl, List.replicate_zero,
      List.nil_append, List.drop_zero]
  apply pyRfind_eq_of_last
  · rw [hchunklen]
    norm_num
  · rw [hdropA]
    exact isPrefixOf_nl_nl _
  · intro k hk1 hk2
    rw [hchunklen] at hk2
    rw [List.drop_append_eq_append_drop, List.drop_replicate, hAlen]
    have h0 : 1500 - k = 0 := by omega
    rw [h0, List.replicate_zero, List.nil_append]
    rcases Nat.lt_or_ge (k - 1500) 2 with hj | hj
    · have hj1 : k - 1500 = 1 := by omega
      rw [hj1,
        show ('\n' :: '\n' :: List.replicate 498 'B').drop 1 =
          '\n' :: List.replicate 498 'B' from rfl,
        show List.isPrefixOf ['\n', '\n'] ('\n' :: List.replicate 498 'B') =
          (('\n' == '\n') && List.isPrefixOf ['\n']
            (List.replicate 498 'B')) from rfl,
        isPrefixOf_replicate_false [] 498 (by decide) (by norm_num)]
      simp
    · obtain ⟨j, hjeq⟩ : ∃ j, k - 1500 = j + 2 := ⟨k - 1502, by omega⟩
      rw [hjeq,
        show ('\n' :: '\n' :: List.replicate 498 'B').drop (j + 2) =
          (List.replicate 498 'B').drop j from rfl,
        List.drop_replicate]
      exact isPrefixOf_replicate_false _ _ (by decide) (by omega)

theorem splitPos_AB :
    splitPos
        (List.replicate 1500 'A' ++ '\n' :: '\n' :: List.replicate 498 'B')
        2000 = 1500 := by
  simp only [splitPos]
  rw [pyRfind_AB]
  norm_num
  rfl

/-- `chunk("A"*1500 + "\n\n" + "B"*1500, 2000)`: both runs survive intact,
split at the paragraph boundary. -/
theorem chunk_message_AB :
    chunk_message
        (List.replicate 1500 'A' ++ '\n' :: '\n' :: List.replicate 1500 'B')
        2000 =
      [List.replicate 1500 'A', List.replicate 1500 'B'] := by
  have hAlen : (List.replicate 1500 'A').length = 1500 :=
    List.length_replicate 1500 'A'
  have hlen : (List.replicate 1500 'A' ++
      '\n' :: '\n' :: List.replicate 1500 'B').length = 3002 := by
    rw [List.length_append, hAlen, List.length_cons, List.length_cons,
      List.length_replicate]
  have htake2000 : (List.replicate 1500 'A' ++
      '\n' :: '\n' :: List.replicate 1500 'B').take 2000 =
      List.replicate 1500 'A' ++ '\n' :: '\n' :: List.replicate 498 'B' := by
    rw [List.take_append_eq_append_take, List.take_replicate, hAlen,
      show min 2000 1500 = 1500 from rfl,
      show (2000 - 1500 : Nat) = 500 from rfl,
      show (500 : Nat) = 499 + 1 from rfl, List.take_succ_cons,
      show (499 : Nat) = 498 + 1 from rfl, List.take_succ_cons,
      List.take_replicate, show min 498 1500 = 498 from rfl]
  have htake1500 : (List.replicate 1500 'A' ++
      '\n' :: '\n' :: List.replicate 1500 'B').take 1500 =
      List.replicate 1500 'A' := by
    rw [List.take_append_eq_append_take, List.take_replicate, hAlen,
      show min 1500 1500 = 1500 from rfl,
      show (1500 - 1500 : Nat) = 0 from rfl, List.take_zero,
      List.append_nil]
  have hdrop1500 : (List.replicate 1500 'A' ++
      '\n' :: '\n' :: List.replicate 1500 'B').drop 1500 =
      '\n' :: '\n' :: List.replicate 1500 'B' := by
    rw [List.drop_append_eq_append_drop, List.drop_replicate, hAlen,
      show (1500 - 1500 : Nat) = 0 from rfl, List.replicate_zero,
      List.nil_append, List.drop_zero]
  have hstrip2 : pyStrip ('\n' :: '\n' :: List.replicate 1500 'B') =
      List.replicate 1500 'B' := by
    unfold pyStrip
    rw [List.dropWhile_cons, if_pos (by decide), List.dropWhile_cons,
      if_pos (by decide), dropWhile_ws_replicate (by decide),
      List.reverse_replicate, dropWhile_ws_replicate (by decide),
      List.reverse_replicate]
  simp only [chunk_message, hlen]
  rw [if_neg (by norm_num)]
  rw [chunkLoop_step 2000 3002 _
    (List.length_pos.mp (by rw [hlen]; norm_num)) (by rw [hlen]; norm_num)]
  rw [htake2000, splitPos_AB, htake1500, hdrop1500,
    pyStrip_replicate _ (by decide), hstrip2]
  rw [show (3002 : Nat) = 3001 + 1 from rfl]
  rw [chunkLoop_done 2000 3001 _
    (List.length_pos.mp (by rw [List.length_replicate]; norm_num))
    (by rw [List.length_replicate]; norm_num)]

/-- C4: the chunker's greedy contract — a text within the limit is returned
as a single unchanged chunk; every returned chunk has length at most
`max_length`; and the three reference examples: `chunk("short", 2000)`,
the paragraph-boundary split of `"A"*1500 + "\n\n" + "B"*1500`, and the
hard-cut `chunk("A"*3000, 2000) = ["A"*2000, "A"*1000]`. -/
theorem chunk_message_contract :
    (∀ (text : List Char) (max_length : Nat), text.length ≤ max_length →
      chunk_message text max_length = [text]) ∧
    (∀ (text : List Char) (max_length : Nat) (c : List Char),
      c ∈ chunk_message text max_length → c.length ≤ max_length) ∧
    chunk_message ("short".toList) 2000 = ["short".toList] ∧
    chunk_message
        (List.replicate 1500 'A' ++ '\n' :: '\n' :: List.replicate 1500 'B')
        2000 =
      [List.replicate 1500 'A', List.replicate 1500 'B'] ∧
    chunk_message (List.replicate 3000 'A') 2000 =
      [List.replicate 2000 'A', List.replicate 1000 'A'] := by
  refine ⟨?_, ?_, by decide, chunk_message_AB, chunk_message_A3000⟩
  · intro text max_length h
    simp [chunk_message, h]
  · intro text max_length c hmem
    by_cases h : text.length ≤ max_length
    · simp [chunk_message, h] at hmem
      subst hmem
      exact h
    · rw [chunk_message, if_neg h] at hmem
      exact chunkLoop_length_le max_length _ _ _ hmem

/-- Witness for `chunk_message_contract`: the single-chunk case evaluated
at a small concrete input. -/
theorem chunk_message_contract_witness :
    chunk_message ("hi".toList) 10 = ["hi".toList] :=
  chunk_message_contract.1 ("hi".toList) 10 (by decide)

/-- C9: the chunker can emit an empty chunk: for `max_length = 5` and the
11-character text `"\n\nabcdefg"` (a double newline followed by more than
`max_length` non-whitespace characters) the first emitted chunk is the
empty string. -/
theorem chunk_message_empty_chunk :
    5 < ("\n\nabcdefg".toList).length ∧
    chunk_message ("\n\nabcdefg".toList) 5 =
      [[], "abcde".toList, "fg".toList] ∧
    [] ∈ chunk_message ("\n\nabcdefg".toList) 5 := by
  refine ⟨by decide, by decide, ?_⟩
  rw [(by decide : chunk_message ("\n\nabcdefg".toList) 5 =
    [[], "abcde".toList, "fg".toList])]
  exact List.mem_cons_self _ _
